import Mathlib

/-!
# Verification of the Relay record core

This development embeds the record layer of the repository, whose canonical
implementation is the `ReasonRecordDict` module (RelayRecordSource.js): the
dispatching module `RelayModernRecord.js` always resolves to it
(`false ? ... : ReasonRecordDict`).

A record is a JavaScript dictionary from storage keys to tagged values
(`type record = Js.Dict.t(value)`).  We model JS dictionaries as
insertion-ordered association lists with no duplicate keys (a JS object can
never hold two entries with the same key); `jsDictGet`/`jsDictSet` mirror
`Js.Dict.get`/`Js.Dict.set`.  Raw JS values appearing at the API boundary
(`valueObj`, `Js.nullable`) are modelled by `JSValue`; the non-integral
IEEE-754 numbers, which never take part in arithmetic here, are abstracted
by their `toString` image (`JSFloat`), on which `toString` is injective.

Mutation and reference identity: the record-level operations are given both
as pure content transformers and, for the operations whose contracts speak
about reference equality (`clone`, `update`, `merge`), as operations on a
small heap of record cells, where allocation returns a fresh address.
Exceptions (`Js.Exn.raiseError` etc.) are modelled by `Except String` with
the raised message as payload; `warning(cond, msg, ...)` from the `warning`
package logs `msg` exactly when `cond` is false, modelled by a returned
list of warning messages.
-/

/-- Abstraction of a non-integral JS number (`Number.isInteger` is false),
identified with its `Js.Float.toString` image. -/
structure JSFloat where
  s : String
deriving DecidableEq

/-- A raw JavaScript value (`valueObj` merged with its `Js.nullable`
wrapper: JS `null` and `undefined` are values of their own). -/
inductive JSValue where
  | null
  | undefined
  | str (s : String)
  | int (n : Int)
  | float (f : JSFloat)
  | bool (b : Bool)
  | arr (elems : List JSValue)
  | obj (fields : List (String × JSValue))

/-- The tagged value stored in a record (`type value` of the source).
`custom` holds an opaque JS object or array that is not a reference
wrapper (the source's abstract `customValue`). -/
inductive Value where
  | null
  | undefined
  | str (s : String)
  | int (n : Int)
  | float (f : JSFloat)
  | bool (b : Bool)
  | ref (id : String)
  | refs (ids : List (Option String))
  | custom (v : JSValue)
  | array (vs : List Value)

/- Structural decidable equality for the two (nested) value types; this is
the deep structural equality that both Reason's polymorphic `==` and the
JS-side `areEqual` compute on these shapes. -/

abbrev instDecidableEqListOptionString : DecidableEq (List (Option String)) := inferInstance

mutual

def JSValue.decEq : (a b : JSValue) → Decidable (a = b)
  | .null, .null => isTrue rfl
  | .undefined, .undefined => isTrue rfl
  | .str a, .str b =>
      match String.decEq a b with
      | isTrue h => isTrue (by rw [h])
      | isFalse h => isFalse (fun hh => by cases hh; exact h rfl)
  | .int a, .int b =>
      match Int.decEq a b with
      | isTrue h => isTrue (by rw [h])
      | isFalse h => isFalse (fun hh => by cases hh; exact h rfl)
  | .float a, .float b =>
      match instDecidableEqJSFloat a b with
      | isTrue h => isTrue (by rw [h])
      | isFalse h => isFalse (fun hh => by cases hh; exact h rfl)
  | .bool a, .bool b =>
      match Bool.decEq a b with
      | isTrue h => isTrue (by rw [h])
      | isFalse h => isFalse (fun hh => by cases hh; exact h rfl)
  | .arr a, .arr b =>
      match JSValue.decEqList a b with
      | isTrue h => isTrue (by rw [h])
      | isFalse h => isFalse (fun hh => by cases hh; exact h rfl)
  | .obj a, .obj b =>
      match JSValue.decEqFields a b with
      | isTrue h => isTrue (by rw [h])
      | isFalse h => isFalse (fun hh => by cases hh; exact h rfl)
  | .null, .undefined => isFalse (fun h => nomatch h)
  | .null, .str _ => isFalse (fun h => nomatch h)
  | .null, .int _ => isFalse (fun h => nomatch h)
  | .null, .float _ => isFalse (fun h => nomatch h)
  | .null, .bool _ => isFalse (fun h => nomatch h)
  | .null, .arr _ => isFalse (fun h => nomatch h)
  | .null, .obj _ => isFalse (fun h => nomatch h)
  | .undefined, .null => isFalse (fun h => nomatch h)
  | .undefined, .str _ => isFalse (fun h => nomatch h)
  | .undefined, .int _ => isFalse (fun h => nomatch h)
  | .undefined, .float _ => isFalse (fun h => nomatch h)
  | .undefined, .bool _ => isFalse (fun h => nomatch h)
  | .undefined, .arr _ => isFalse (fun h => nomatch h)
  | .undefined, .obj _ => isFalse (fun h => nomatch h)
  | .str _, .null => isFalse (fun h => nomatch h)
  | .str _, .undefined => isFalse (fun h => nomatch h)
  | .str _, .int _ => isFalse (fun h => nomatch h)
  | .str _, .float _ => isFalse (fun h => nomatch h)
  | .str _, .bool _ => isFalse (fun h => nomatch h)
  | .str _, .arr _ => isFalse (fun h => nomatch h)
  | .str _, .obj _ => isFalse (fun h => nomatch h)
  | .int _, .null => isFalse (fun h => nomatch h)
  | .int _, .undefined => isFalse (fun h => nomatch h)
  | .int _, .str _ => isFalse (fun h => nomatch h)
  | .int _, .float _ => isFalse (fun h => nomatch h)
  | .int _, .bool _ => isFalse (fun h => nomatch h)
  | .int _, .arr _ => isFalse (fun h => nomatch h)
  | .int _, .obj _ => isFalse (fun h => nomatch h)
  | .float _, .null => isFalse (fun h => nomatch h)
  | .float _, .undefined => isFalse (fun h => nomatch h)
  | .float _, .str _ => isFalse (fun h => nomatch h)
  | .float _, .int _ => isFalse (fun h => nomatch h)
  | .float _, .bool _ => isFalse (fun h => nomatch h)
  | .float _, .arr _ => isFalse (fun h => nomatch h)
  | .float _, .obj _ => isFalse (fun h => nomatch h)
  | .bool _, .null => isFalse (fun h => nomatch h)
  | .bool _, .undefined => isFalse (fun h => nomatch h)
  | .bool _, .str _ => isFalse (fun h => nomatch h)
  | .bool _, .int _ => isFalse (fun h => nomatch h)
  | .bool _, .float _ => isFalse (fun h => nomatch h)
  | .bool _, .arr _ => isFalse (fun h => nomatch h)
  | .bool _, .obj _ => isFalse (fun h => nomatch h)
  | .arr _, .null => isFalse (fun h => nomatch h)
  | .arr _, .undefined => isFalse (fun h => nomatch h)
  | .arr _, .str _ => isFalse (fun h => nomatch h)
  | .arr _, .int _ => isFalse (fun h => nomatch h)
  | .arr _, .float _ => isFalse (fun h => nomatch h)
  | .arr _, .bool _ => isFalse (fun h => nomatch h)
  | .arr _, .obj _ => isFalse (fun h => nomatch h)
  | .obj _, .null => isFalse (fun h => nomatch h)
  | .obj _, .undefined => isFalse (fun h => nomatch h)
  | .obj _, .str _ => isFalse (fun h => nomatch h)
  | .obj _, .int _ => isFalse (fun h => nomatch h)
  | .obj _, .float _ => isFalse (fun h => nomatch h)
  | .obj _, .bool _ => isFalse (fun h => nomatch h)
  | .obj _, .arr _ => isFalse (fun h => nomatch h)

def JSValue.decEqList : (a b : List JSValue) → Decidable (a = b)
  | [], [] => isTrue rfl
  | [], _ :: _ => isFalse (fun h => nomatch h)
  | _ :: _, [] => isFalse (fun h => nomatch h)
  | x :: xs, y :: ys =>
      match JSValue.decEq x y, JSValue.decEqList xs ys with
      | isTrue h1, isTrue h2 => isTrue (by rw [h1, h2])
      | isFalse h1, _ => isFalse (fun hh => by cases hh; exact h1 rfl)
      | _, isFalse h2 => isFalse (fun hh => by cases hh; exact h2 rfl)

def JSValue.decEqFields : (a b : List (String × JSValue)) → Decidable (a = b)
  | [], [] => isTrue rfl
  | [], _ :: _ => isFalse (fun h => nomatch h)
  | _ :: _, [] => isFalse (fun h => nomatch h)
  | (k1, v1) :: xs, (k2, v2) :: ys =>
      match String.decEq k1 k2, JSValue.decEq v1 v2, JSValue.decEqFields xs ys with
      | isTrue h0, isTrue h1, isTrue h2 => isTrue (by rw [h0, h1, h2])
      | isFalse h0, _, _ => isFalse (fun hh => by cases hh; exact h0 rfl)
      | _, isFalse h1, _ => isFalse (fun hh => by cases hh; exact h1 rfl)
      | _, _, isFalse h2 => isFalse (fun hh => by cases hh; exact h2 rfl)

end

instance : DecidableEq JSValue := JSValue.decEq

mutual

def Value.decEq : (a b : Value) → Decidable (a = b)
  | .null, .null => isTrue rfl
  | .undefined, .undefined => isTrue rfl
  | .str a, .str b =>
      match String.decEq a b with
      | isTrue h => isTrue (by rw [h])
      | isFalse h => isFalse (fun hh => by cases hh; exact h rfl)
  | .int a, .int b =>
      match Int.decEq a b with
      | isTrue h => isTrue (by rw [h])
      | isFalse h => isFalse (fun hh => by cases hh; exact h rfl)
  | .float a, .float b =>
      match instDecidableEqJSFloat a b with
      | isTrue h => isTrue (by rw [h])
      | isFalse h => isFalse (fun hh => by cases hh; exact h rfl)
  | .bool a, .bool b =>
      match Bool.decEq a b with
      | isTrue h => isTrue (by rw [h])
      | isFalse h => isFalse (fun hh => by cases hh; exact h rfl)
  | .ref a, .ref b =>
      match String.decEq a b with
      | isTrue h => isTrue (by rw [h])
      | isFalse h => isFalse (fun hh => by cases hh; exact h rfl)
  | .refs a, .refs b =>
      match instDecidableEqListOptionString a b with
      | isTrue h => isTrue (by rw [h])
      | isFalse h => isFalse (fun hh => by cases hh; exact h rfl)
  | .custom a, .custom b =>
      match JSValue.decEq a b with
      | isTrue h => isTrue (by rw [h])
      | isFalse h => isFalse (fun hh => by cases hh; exact h rfl)
  | .array a, .array b =>
      match Value.decEqList a b with
      | isTrue h => isTrue (by rw [h])
      | isFalse h => isFalse (fun hh => by cases hh; exact h rfl)
  | .null, .undefined => isFalse (fun h => nomatch h)
  | .null, .str _ => isFalse (fun h => nomatch h)
  | .null, .int _ => isFalse (fun h => nomatch h)
  | .null, .float _ => isFalse (fun h => nomatch h)
  | .null, .bool _ => isFalse (fun h => nomatch h)
  | .null, .ref _ => isFalse (fun h => nomatch h)
  | .null, .refs _ => isFalse (fun h => nomatch h)
  | .null, .custom _ => isFalse (fun h => nomatch h)
  | .null, .array _ => isFalse (fun h => nomatch h)
  | .undefined, .null => isFalse (fun h => nomatch h)
  | .undefined, .str _ => isFalse (fun h => nomatch h)
  | .undefined, .int _ => isFalse (fun h => nomatch h)
  | .undefined, .float _ => isFalse (fun h => nomatch h)
  | .undefined, .bool _ => isFalse (fun h => nomatch h)
  | .undefined, .ref _ => isFalse (fun h => nomatch h)
  | .undefined, .refs _ => isFalse (fun h => nomatch h)
  | .undefined, .custom _ => isFalse (fun h => nomatch h)
  | .undefined, .array _ => isFalse (fun h => nomatch h)
  | .str _, .null => isFalse (fun h => nomatch h)
  | .str _, .undefined => isFalse (fun h => nomatch h)
  | .str _, .int _ => isFalse (fun h => nomatch h)
  | .str _, .float _ => isFalse (fun h => nomatch h)
  | .str _, .bool _ => isFalse (fun h => nomatch h)
  | .str _, .ref _ => isFalse (fun h => nomatch h)
  | .str _, .refs _ => isFalse (fun h => nomatch h)
  | .str _, .custom _ => isFalse (fun h => nomatch h)
  | .str _, .array _ => isFalse (fun h => nomatch h)
  | .int _, .null => isFalse (fun h => nomatch h)
  | .int _, .undefined => isFalse (fun h => nomatch h)
  | .int _, .str _ => isFalse (fun h => nomatch h)
  | .int _, .float _ => isFalse (fun h => nomatch h)
  | .int _, .bool _ => isFalse (fun h => nomatch h)
  | .int _, .ref _ => isFalse (fun h => nomatch h)
  | .int _, .refs _ => isFalse (fun h => nomatch h)
  | .int _, .custom _ => isFalse (fun h => nomatch h)
  | .int _, .array _ => isFalse (fun h => nomatch h)
  | .float _, .null => isFalse (fun h => nomatch h)
  | .float _, .undefined => isFalse (fun h => nomatch h)
  | .float _, .str _ => isFalse (fun h => nomatch h)
  | .float _, .int _ => isFalse (fun h => nomatch h)
  | .float _, .bool _ => isFalse (fun h => nomatch h)
  | .float _, .ref _ => isFalse (fun h => nomatch h)
  | .float _, .refs _ => isFalse (fun h => nomatch h)
  | .float _, .custom _ => isFalse (fun h => nomatch h)
  | .float _, .array _ => isFalse (fun h => nomatch h)
  | .bool _, .null => isFalse (fun h => nomatch h)
  | .bool _, .undefined => isFalse (fun h => nomatch h)
  | .bool _, .str _ => isFalse (fun h => nomatch h)
  | .bool _, .int _ => isFalse (fun h => nomatch h)
  | .bool _, .float _ => isFalse (fun h => nomatch h)
  | .bool _, .ref _ => isFalse (fun h => nomatch h)
  | .bool _, .refs _ => isFalse (fun h => nomatch h)
  | .bool _, .custom _ => isFalse (fun h => nomatch h)
  | .bool _, .array _ => isFalse (fun h => nomatch h)
  | .ref _, .null => isFalse (fun h => nomatch h)
  | .ref _, .undefined => isFalse (fun h => nomatch h)
  | .ref _, .str _ => isFalse (fun h => nomatch h)
  | .ref _, .int _ => isFalse (fun h => nomatch h)
  | .ref _, .float _ => isFalse (fun h => nomatch h)
  | .ref _, .bool _ => isFalse (fun h => nomatch h)
  | .ref _, .refs _ => isFalse (fun h => nomatch h)
  | .ref _, .custom _ => isFalse (fun h => nomatch h)
  | .ref _, .array _ => isFalse (fun h => nomatch h)
  | .refs _, .null => isFalse (fun h => nomatch h)
  | .refs _, .undefined => isFalse (fun h => nomatch h)
  | .refs _, .str _ => isFalse (fun h => nomatch h)
  | .refs _, .int _ => isFalse (fun h => nomatch h)
  | .refs _, .float _ => isFalse (fun h => nomatch h)
  | .refs _, .bool _ => isFalse (fun h => nomatch h)
  | .refs _, .ref _ => isFalse (fun h => nomatch h)
  | .refs _, .custom _ => isFalse (fun h => nomatch h)
  | .refs _, .array _ => isFalse (fun h => nomatch h)
  | .custom _, .null => isFalse (fun h => nomatch h)
  | .custom _, .undefined => isFalse (fun h => nomatch h)
  | .custom _, .str _ => isFalse (fun h => nomatch h)
  | .custom _, .int _ => isFalse (fun h => nomatch h)
  | .custom _, .float _ => isFalse (fun h => nomatch h)
  | .custom _, .bool _ => isFalse (fun h => nomatch h)
  | .custom _, .ref _ => isFalse (fun h => nomatch h)
  | .custom _, .refs _ => isFalse (fun h => nomatch h)
  | .custom _, .array _ => isFalse (fun h => nomatch h)
  | .array _, .null => isFalse (fun h => nomatch h)
  | .array _, .undefined => isFalse (fun h => nomatch h)
  | .array _, .str _ => isFalse (fun h => nomatch h)
  | .array _, .int _ => isFalse (fun h => nomatch h)
  | .array _, .float _ => isFalse (fun h => nomatch h)
  | .array _, .bool _ => isFalse (fun h => nomatch h)
  | .array _, .ref _ => isFalse (fun h => nomatch h)
  | .array _, .refs _ => isFalse (fun h => nomatch h)
  | .array _, .custom _ => isFalse (fun h => nomatch h)

def Value.decEqList : (a b : List Value) → Decidable (a = b)
  | [], [] => isTrue rfl
  | [], _ :: _ => isFalse (fun h => nomatch h)
  | _ :: _, [] => isFalse (fun h => nomatch h)
  | x :: xs, y :: ys =>
      match Value.decEq x y, Value.decEqList xs ys with
      | isTrue h1, isTrue h2 => isTrue (by rw [h1, h2])
      | isFalse h1, _ => isFalse (fun hh => by cases hh; exact h1 rfl)
      | _, isFalse h2 => isFalse (fun hh => by cases hh; exact h2 rfl)

end

instance : DecidableEq Value := Value.decEq

/-- `Js.Dict.get`: the (first) binding of a key in a JS dictionary. -/
def jsDictGet {α : Type} : List (String × α) → String → Option α
  | [], _ => none
  | (k₀, v₀) :: rest, k => if k₀ = k then some v₀ else jsDictGet rest k

/-- `Js.Dict.set`: overwrite the binding of `k` in place if present
(keeping its position, as JS objects do), otherwise append it. -/
def jsDictSet {α : Type} : List (String × α) → String → α → List (String × α)
  | [], k, v => [(k, v)]
  | (k₀, v₀) :: rest, k, v =>
      if k₀ = k then (k, v) :: rest else (k₀, v₀) :: jsDictSet rest k v

/-- The keys of a JS dictionary, in insertion order. -/
def jsDictKeys {α : Type} (d : List (String × α)) : List String :=
  d.map Prod.fst

/-- A JS dictionary is well formed when no key occurs twice (always true of
an actual JS object). -/
def jsDictNodup {α : Type} (d : List (String × α)) : Prop :=
  (jsDictKeys d).Nodup

instance {α : Type} (d : List (String × α)) : Decidable (jsDictNodup d) := by
  unfold jsDictNodup; infer_instance

/- The reserved storage keys (module `Keys` of the source). -/
namespace Keys

def id_key : String := "__id"

def typename_key : String := "__typename"

def ref_key : String := "__ref"

def refs_key : String := "__refs"

def invalidated_at_key : String := "__invalidated_at"

def frozen_key : String := "__frozen"

end Keys

/-- `isClientID`: the regex test `/^client:/` — true exactly when the id
starts with the characters `client:` (written on the underlying character
lists so that it evaluates by `decide`). -/
def isClientID (id : String) : Bool :=
  "client:".data.isPrefixOf id.data

/-- A record: `Js.Dict.t(value)`. -/
abbrev RecordD := List (String × Value)

/-- The boundary representation of a record:
`Js.Dict.t(Js.nullable(valueObj))`. -/
abbrev RecordObjD := List (String × JSValue)

/-- How a plural-reference slot crosses the JS boundary: a missing linked
record is the JS `null` slot inside the `__refs` array. -/
def encodeRefEntry : Option String → JSValue
  | some s => .str s
  | none => .null

/-- Reading one slot of a raw `__refs` array back (the unchecked
`Obj.magic` cast of the source made partial: a slot that is neither a
string nor `null` has no `option(string)` counterpart). -/
def decodeRefEntry : JSValue → Option (Option String)
  | .str s => some (some s)
  | .null => some none
  | _ => none

/-- Reading a raw `__refs` array's slots back, one by one. -/
def decodeRefList : List JSValue → Option (List (Option String))
  | [] => some []
  | e :: rest =>
      (decodeRefEntry e).bind fun o => (decodeRefList rest).map fun os => o :: os

/-- Reading a raw `__refs` payload back as `array(option(string))`. -/
def decodeRefs : JSValue → Option (List (Option String))
  | .arr es => decodeRefList es
  | _ => none

/-- The unchecked string cast applied to a raw `__ref` payload. -/
def asString : JSValue → Option String
  | .str s => some s
  | _ => none

/-- `transformValueFromObj`: classify a raw JS value as a tagged `value`.
The dispatch follows `Js.typeof`:
* the source's `"array"` branch is dead code, since JS `typeof` of an
  array is `"object"`; an array therefore reaches the object branch, has
  neither a `__ref` nor a `__refs` field, and becomes `Custom`;
* JS `null` also has `typeof` `"object"` and the field access on it would
  throw at runtime, and `undefined` reaches the explicit
  `raiseTypeError("Unhandled value type ...")` fallback — both are `none`
  here (every caller filters them out before calling);
* the `Obj.magic` casts on the `__ref`/`__refs` payloads are partial
  (`none` when the payload does not have the cast's type). -/
def transformValueFromObj : JSValue → Option Value
  | .str s => some (.str s)
  | .bool b => some (.bool b)
  | .int n => some (.int n)
  | .float f => some (.float f)
  | .arr es => some (.custom (.arr es))
  | .obj fs =>
      match jsDictGet fs Keys.ref_key, jsDictGet fs Keys.refs_key with
      | some a, none => (asString a).map .ref
      | none, some a => (decodeRefs a).map .refs
      | _, _ => some (.custom (.obj fs))
  | .null => none
  | .undefined => none

mutual

/-- `transformValueToObj`: a tagged `value` back to its raw JS form. -/
def transformValueToObj : Value → JSValue
  | .array vs => .arr (transformValueListToObj vs)
  | .custom v => v
  | .str s => .str s
  | .bool b => .bool b
  | .int n => .int n
  | .float f => .float f
  | .null => .null
  | .undefined => .undefined
  | .ref v => .obj [(Keys.ref_key, .str v)]
  | .refs v => .obj [(Keys.refs_key, .arr (v.map encodeRefEntry))]

/-- The `Array.map(transformValueToObj)` of the (dead) `Array` branch. -/
def transformValueListToObj : List Value → List JSValue
  | [] => []
  | v :: rest => transformValueToObj v :: transformValueListToObj rest

end

/-- `Js.Nullable.t(α)`: `undefined`, `null`, or a value. -/
inductive JsNullable (α : Type) where
  | undefined
  | null
  | val (a : α)
deriving DecidableEq

/- The canonical record implementation, module `ReasonRecordDict`. -/
namespace ReasonRecordDict

/-- `clone`: iterate the record's entries and set every one except the
frozen marker into a fresh dictionary — for the duplicate-free entry lists
a JS dictionary produces, that is exactly this filter. -/
def clone (r : RecordD) : RecordD :=
  r.filter fun e => e.1 != Keys.frozen_key

/-- `copyFields(a, b)`: set every field of `a` except `__id` and
`__typename` into `b` (mutating `b`); returns `b`'s new contents. -/
def copyFields (src sink : RecordD) : RecordD :=
  src.foldl
    (fun acc e =>
      if e.1 ≠ Keys.id_key ∧ e.1 ≠ Keys.typename_key then jsDictSet acc e.1 e.2 else acc)
    sink

/-- What JS callers actually supply for `create`'s `dataId` (it is declared
`string`, but the `Js.typeof(dataId) === "number"` branch exists for JS
callers that pass a raw number, as the repository's tests do). -/
inductive DataIdInput where
  | str (s : String)
  | int (n : Int)
  | float (f : JSFloat)
deriving DecidableEq

/-- `create(dataId, typename)`: fresh record holding only the identity
fields.  A number passed as id is stringified
(`Js.Int.toString(Obj.magic(dataId))` compiles to `dataId.toString()`,
whose image for a non-integral number is its `JSFloat` string); a string
id is stored as is.  The function cannot fail. -/
def create (dataId : DataIdInput) (typename : String) : RecordD :=
  let id : String :=
    match dataId with
    | .str s => s
    | .int n => toString n
    | .float f => f.s
  jsDictSet (jsDictSet [] Keys.id_key (.str id)) Keys.typename_key (.str typename)

/-- `freeze`: store the in-band frozen marker. -/
def freeze (r : RecordD) : RecordD :=
  jsDictSet r Keys.frozen_key (.bool true)

/-- `isFrozen`: read the in-band frozen marker. -/
def isFrozen (r : RecordD) : Bool :=
  match jsDictGet r Keys.frozen_key with
  | some (.bool v) => v
  | _ => false

/-- `getDataID` (reads `""` when the id slot is missing or not a string). -/
def getDataID (r : RecordD) : String :=
  match jsDictGet r Keys.id_key with
  | some (.str v) => v
  | _ => ""

/-- `getType` (reads `""` when the type slot is missing or not a string). -/
def getType (r : RecordD) : String :=
  match jsDictGet r Keys.typename_key with
  | some (.str v) => v
  | _ => ""

/-- `getLinkedRecordID`: a single-reference accessor; on a stored value of
any other populated kind it raises `Js.Exn.raiseError("WRONG")`. -/
def getLinkedRecordID (r : RecordD) (key : String) : Except String (JsNullable String) :=
  match jsDictGet r key with
  | some (.ref ref) => .ok (.val ref)
  | none => .ok .undefined
  | some .null => .ok .null
  | some _ => .error "WRONG"

/-- The `valueFormatted` description used by `getLinkedRecordIDs`'s error
(`Js.Float.toString`, `string_of_int` and `string_of_bool` are the
evident string images). -/
def valueFormatted : Value → String
  | .str s => s
  | .float f => f.s
  | .int i => toString i
  | .bool b => if b then "true" else "false"
  | .ref r => "ref:" ++ r
  | .null => "null"
  | _ => "Whatever left"

/-- The formatted `getLinkedRecordIDs` error message. -/
def getLinkedRecordIDsMsg (id key found : String) : String :=
  "RelayModernRecord.getLinkedRecordIDs(): Expected `" ++ id ++ "." ++ key ++
    "` to contain an array of linked IDs, got `" ++ found ++ "`."

/-- `getLinkedRecordIDs`: the plural-reference accessor. -/
def getLinkedRecordIDs (r : RecordD) (key : String) :
    Except String (JsNullable (List (Option String))) :=
  match jsDictGet r key with
  | some (.refs refs) => .ok (.val refs)
  | none => .ok .undefined
  | some .null => .ok .null
  | some value => .error (getLinkedRecordIDsMsg (getDataID r) key (valueFormatted value))

/-- The formatted `getValue` error message; `found` is `"a linked record"`
or `"plural linked records"`. -/
def getValueMsg (id key found : String) : String :=
  "RelayModernRecord.getValue(): Expected a scalar (non-link) value for `" ++
    id ++ "." ++ key ++ "` but found " ++ found ++ "."

/-- `getValue`: the scalar accessor; returns the raw JS form of the stored
value (so an explicit `Null` comes back as JS `null` and both a missing
key and a stored `Undefined` come back as JS `undefined`). -/
def getValue (r : RecordD) (key : String) : Except String JSValue :=
  match jsDictGet r key with
  | some (.ref _) => .error (getValueMsg (getDataID r) key "a linked record")
  | some (.refs _) => .error (getValueMsg (getDataID r) key "plural linked records")
  | some v => .ok (transformValueToObj v)
  | none => .ok .undefined

/-- The classification shared by `setValue` and `fromObj` of a raw
nullable JS value into a stored `value`: JS `null` becomes `Null`,
`undefined` becomes `Undefined`, anything else goes through
`transformValueFromObj` (whose raise is `none`). -/
def classifyValueObj : JSValue → Option Value
  | .null => some Value.null
  | .undefined => some Value.undefined
  | v => transformValueFromObj v

/-- The body of `update`'s `Array.iter` over `b`'s entries: `acc` is the
`record: ref(option(record))` cell — `none` while no difference has been
seen, `some` the freshly cloned-and-patched record afterwards.  (The
`__DEV__` id/type consistency warnings of `update` only log; they do not
affect the returned record and are not modelled here.) -/
def updateLoop (a b : RecordD) : Option RecordD → List (String × Value) → Option RecordD
  | acc, [] => acc
  | acc, (k, v) :: rest =>
      if acc.isSome ∨ jsDictGet a k ≠ jsDictGet b k then
        match acc with
        | none => updateLoop a b (some (jsDictSet (clone a) k v)) rest
        | some r => updateLoop a b (some (jsDictSet r k v)) rest
      else updateLoop a b acc rest

/-- `update(a, b)` up to the final `switch`: `none` means the source
returns `a` itself (reference-equal), `some d` means it returns the fresh
record `d`. -/
def updateP (a b : RecordD) : Option RecordD :=
  updateLoop a b none b

/-- `update(a, b)`'s returned contents. -/
def update (a b : RecordD) : RecordD :=
  (updateP a b).getD a

/-- Setting a list of entries into a dict one by one (the
`Array.iter(((k, v)) => Js.Dict.set(merged, k, v))` loop). -/
def setEntries (d : RecordD) (l : List (String × Value)) : RecordD :=
  l.foldl (fun acc e => jsDictSet acc e.1 e.2) d

/-- `merge(a, b)`: clone `a`, then set every entry of `b` into the clone.
(As in `update`, the consistency warnings only log and are not part of
the returned record.) -/
def merge (a b : RecordD) : RecordD :=
  setEntries (clone a) b

instance {ε α : Type} [DecidableEq ε] [DecidableEq α] : DecidableEq (Except ε α)
  | .error a, .error b =>
      match decEq a b with
      | isTrue h => isTrue (by rw [h])
      | isFalse h => isFalse (fun hh => by cases hh; exact h rfl)
  | .ok a, .ok b =>
      match decEq a b with
      | isTrue h => isTrue (by rw [h])
      | isFalse h => isFalse (fun hh => by cases hh; exact h rfl)
  | .error _, .ok _ => isFalse (fun h => nomatch h)
  | .ok _, .error _ => isFalse (fun h => nomatch h)

/-- What a call to `setValue` produces: the warnings logged through the
`warning` package, and either the raised error or the record's new
contents. -/
structure SetValueResult where
  warnings : List String
  result : Except String RecordD
deriving DecidableEq

/-- `warning(cond, msg, ...)` logs its message exactly when `cond` is
false. -/
def warnUnless (cond : Bool) (msg : String) : List String :=
  if cond then [] else [msg]

/-- The formatted id-consistency warning of `setValue`. -/
def setValueIdWarning (prevId v : String) : String :=
  "RelayModernRecord: Invalid field update, expected both versions of the record to have the same id, got `" ++
    prevId ++ "` and `" ++ v ++ "`."

/-- The formatted type-consistency warning of `setValue`. -/
def setValueTypeWarning (prevID prevType nextType : String) : String :=
  "RelayModernRecord: Invalid field update, expected both versions of record `" ++
    prevID ++ "` to have the same `" ++ Keys.typename_key ++
    "` but got conflicting types `" ++ prevType ++ "` and `" ++ nextType ++
    "`. The GraphQL server likely violated the globally unique id requirement by returning the same id for different objects."

/-- `setValue(r, key, valueObj)`.  The raw value is classified first
(JS `null` ↦ `Null`, `undefined` ↦ `Undefined`, otherwise
`transformValueFromObj`, whose raise is the `"Unhandled value type"`
error); then the `when`-guarded match emits the id/type consistency
warnings (only when the new value is a string, and with the
client-generated-id exemption on the type check); finally the frozen
marker is consulted — `Some(Bool(true))` raises, anything else stores. -/
def setValue (r : RecordD) (key : String) (valueObj : JSValue) : SetValueResult :=
  match classifyValueObj valueObj with
  | none => { warnings := [], result := .error "Unhandled value type" }
  | some value =>
      let warns : List String :=
        match value with
        | .str v =>
            if key = Keys.id_key then
              warnUnless (getDataID r == v) (setValueIdWarning (getDataID r) v)
            else if key = Keys.typename_key then
              warnUnless (isClientID (getDataID r) || getType r == v)
                (setValueTypeWarning (getDataID r) (getType r) v)
            else []
        | _ => []
      match jsDictGet r Keys.frozen_key with
      | some (.bool true) => { warnings := warns, result := .error "Record is frozen" }
      | _ => { warnings := warns, result := .ok (jsDictSet r key value) }

/-- `setLinkedRecordID`: unconditionally store a single reference.  Note
that, unlike `setValue`, it consults neither the frozen marker nor the
consistency checks. -/
def setLinkedRecordID (r : RecordD) (key : String) (id : String) : RecordD :=
  jsDictSet r key (.ref id)

/-- `setLinkedRecordIDs`: unconditionally store a plural reference. -/
def setLinkedRecordIDs (r : RecordD) (key : String) (refs : List (Option String)) : RecordD :=
  jsDictSet r key (.refs refs)

/-- `toObj`: iterate the record's entries and set every one except the
frozen marker, transformed to its raw JS form and wrapped by
`Js.Nullable.return`, into a fresh dictionary — for the duplicate-free
entry lists a JS dictionary produces, that is exactly this `filterMap`.
(`toObj`'s `Js.nullable(record)` argument makes `toObj(null)` the empty
dictionary; only the record branch is needed here.) -/
def toObj (r : RecordD) : RecordObjD :=
  r.filterMap fun e =>
    if e.1 == Keys.frozen_key then none else some (e.1, transformValueToObj e.2)

/-- `fromObj`: rebuild a record from its boundary form, entry by entry
(JS `null` ↦ `Null`, `undefined` ↦ `Undefined`, otherwise
`transformValueFromObj`); `none` models the raise inside
`transformValueFromObj`. -/
def fromObj (o : RecordObjD) : Option RecordD :=
  o.foldl
    (fun acc e =>
      acc.bind fun d =>
        (classifyValueObj e.2).map fun value => jsDictSet d e.1 value)
    (some [])

end ReasonRecordDict

/- A small heap of record cells, for the contracts that speak about
reference identity and about operations not mutating their arguments.
`Js.Dict.t` values are mutable and passed by reference; an address is an
index into the heap, allocation appends a fresh cell. -/

abbrev HeapD := List RecordD

/-- Dereference an address (out-of-range reads give the empty record; the
operations below are only ever applied to live addresses). -/
def hread (h : HeapD) (r : Nat) : RecordD :=
  (h.get? r).getD []

/-- Allocate a fresh record cell, returning its address. -/
def halloc (h : HeapD) (d : RecordD) : HeapD × Nat :=
  (h ++ [d], h.length)

/-- `clone` at the heap level: reads `r`, allocates the copy. -/
def cloneOp (h : HeapD) (r : Nat) : HeapD × Nat :=
  halloc h (ReasonRecordDict.clone (hread h r))

/-- `update` at the heap level: either returns `a`'s own address (the
no-change fast path) or allocates the patched clone. -/
def updateOp (h : HeapD) (a b : Nat) : HeapD × Nat :=
  match ReasonRecordDict.updateP (hread h a) (hread h b) with
  | none => (h, a)
  | some d => halloc h d

/-- `merge` at the heap level: always allocates. -/
def mergeOp (h : HeapD) (a b : Nat) : HeapD × Nat :=
  halloc h (ReasonRecordDict.merge (hread h a) (hread h b))

/-! ## Dictionary lemmas -/

theorem jsDictGet_set {α : Type} (d : List (String × α)) (k : String) (v : α) (k1 : String) :
    jsDictGet (jsDictSet d k v) k1 = if k1 = k then some v else jsDictGet d k1 := by
  induction d with
  | nil =>
      simp only [jsDictSet, jsDictGet]
      by_cases h : k1 = k
      · subst h; simp
      · rw [if_neg fun hh => h hh.symm, if_neg h]
  | cons e rest ih =>
      obtain ⟨k₀, v₀⟩ := e
      simp only [jsDictSet]
      by_cases h0 : k₀ = k
      · subst h0
        simp only [if_pos rfl, jsDictGet]
        by_cases h1 : k₀ = k1
        · subst h1; simp
        · rw [if_neg h1, if_neg fun hh => h1 hh.symm, if_neg h1]
      · rw [if_neg h0]
        simp only [jsDictGet]
        by_cases h1 : k₀ = k1
        · subst h1
          rw [if_pos rfl, if_pos rfl, if_neg h0]
        · rw [if_neg h1, if_neg h1, ih]

theorem jsDictSet_of_not_mem {α : Type} {d : List (String × α)} {k : String} (v : α)
    (h : k ∉ jsDictKeys d) : jsDictSet d k v = d ++ [(k, v)] := by
  induction d with
  | nil => rfl
  | cons e rest ih =>
      obtain ⟨k₀, v₀⟩ := e
      simp only [jsDictKeys, List.map_cons, List.mem_cons] at h
      push_neg at h
      have hne : ¬k₀ = k := fun hh => h.1 hh.symm
      simp only [jsDictSet, if_neg hne, List.cons_append, List.cons.injEq, true_and]
      exact ih h.2

theorem jsDictGet_eq_some_of_mem {α : Type} (d : List (String × α)) (k : String) (v : α)
    (hnd : jsDictNodup d) (hm : (k, v) ∈ d) : jsDictGet d k = some v := by
  induction d with
  | nil => cases hm
  | cons e rest ih =>
      obtain ⟨k₀, v₀⟩ := e
      simp only [jsDictNodup, jsDictKeys, List.map_cons, List.nodup_cons] at hnd
      rcases List.mem_cons.mp hm with h | h
      · cases h; simp [jsDictGet]
      · have hne : k₀ ≠ k := by
          intro hh; subst hh
          exact hnd.1 (List.mem_map.mpr ⟨(k₀, v), h, rfl⟩)
        simp only [jsDictGet, if_neg hne]
        exact ih hnd.2 h

theorem jsDictGet_eq_none_iff {α : Type} (d : List (String × α)) (k : String) :
    jsDictGet d k = none ↔ k ∉ jsDictKeys d := by
  induction d with
  | nil => simp [jsDictGet, jsDictKeys]
  | cons e rest ih =>
      obtain ⟨k₀, v₀⟩ := e
      simp only [jsDictGet, jsDictKeys, List.map_cons, List.mem_cons]
      by_cases h : k₀ = k
      · subst h; simp
      · simp only [if_neg h]
        rw [ih]
        simp only [jsDictKeys]
        constructor
        · rintro hn (h1 | h2)
          · exact h h1.symm
          · exact hn h2
        · intro hn h2
          exact hn (Or.inr h2)

theorem jsDictGet_isSome_iff {α : Type} (d : List (String × α)) (k : String) :
    (jsDictGet d k).isSome = true ↔ k ∈ jsDictKeys d := by
  rw [← Decidable.not_not (p := k ∈ jsDictKeys d), ← jsDictGet_eq_none_iff]
  cases jsDictGet d k <;> simp

/-! ## Clone, heap and freeze lemmas -/

namespace ReasonRecordDict

theorem clone_get (r : RecordD) (k : String) :
    jsDictGet (clone r) k = if k = Keys.frozen_key then none else jsDictGet r k := by
  induction r with
  | nil => simp [clone, jsDictGet]
  | cons e rest ih =>
      obtain ⟨k₀, v₀⟩ := e
      by_cases h0 : k₀ = Keys.frozen_key
      · subst h0
        have : clone ((Keys.frozen_key, v₀) :: rest) = clone rest := by
          simp [clone, List.filter_cons]
        rw [this, ih]
        by_cases h1 : k = Keys.frozen_key
        · simp [h1]
        · have hne : ¬Keys.frozen_key = k := fun hh => h1 hh.symm
          rw [if_neg h1, jsDictGet, if_neg hne, if_neg h1]
      · have : clone ((k₀, v₀) :: rest) = (k₀, v₀) :: clone rest := by
          simp [clone, List.filter_cons, h0]
        rw [this]
        simp only [jsDictGet]
        by_cases h1 : k₀ = k
        · subst h1
          rw [if_pos rfl, if_neg h0, if_pos rfl]
        · rw [if_neg h1, if_neg h1, ih]

theorem clone_of_not_frozen {r : RecordD} (h : Keys.frozen_key ∉ jsDictKeys r) :
    clone r = r := by
  induction r with
  | nil => rfl
  | cons e rest ih =>
      obtain ⟨k₀, v₀⟩ := e
      simp only [jsDictKeys, List.map_cons, List.mem_cons] at h
      push_neg at h
      have : k₀ != Keys.frozen_key := by
        simp only [bne_iff_ne, ne_eq]
        exact fun hh => h.1 hh.symm
      simp only [clone, List.filter_cons, this, if_pos]
      simp only [clone] at ih
      rw [ih h.2]

theorem isFrozen_clone (r : RecordD) : isFrozen (clone r) = false := by
  simp [isFrozen, clone_get]

end ReasonRecordDict

theorem hread_append {h : HeapD} (d : RecordD) {r : Nat} (hr : r < h.length) :
    hread (h ++ [d]) r = hread h r := by
  induction h generalizing r with
  | nil => cases hr
  | cons c rest ih =>
      cases r with
      | zero => rfl
      | succ r' =>
          simp only [List.length_cons, Nat.succ_lt_succ_iff] at hr
          exact ih hr

theorem hread_concat (h : HeapD) (d : RecordD) : hread (h ++ [d]) h.length = d := by
  induction h with
  | nil => rfl
  | cons c rest ih => exact ih

/-! ## The copy-on-write scan of `update` -/

namespace ReasonRecordDict

theorem updateLoop_some_isSome (a b r : RecordD) (l : List (String × Value)) :
    (updateLoop a b (some r) l).isSome = true := by
  induction l generalizing r with
  | nil => rfl
  | cons e rest ih =>
      obtain ⟨k, v⟩ := e
      have hc : (some r).isSome = true ∨ jsDictGet a k ≠ jsDictGet b k := Or.inl rfl
      simp only [updateLoop, if_pos hc]
      exact ih _

theorem updateLoop_none_eq_none_iff (a b : RecordD) (l : List (String × Value)) :
    updateLoop a b none l = none ↔ ∀ e ∈ l, jsDictGet a e.1 = jsDictGet b e.1 := by
  induction l with
  | nil => simp [updateLoop]
  | cons e rest ih =>
      obtain ⟨k, v⟩ := e
      by_cases hd : jsDictGet a k = jsDictGet b k
      · have hc : ¬((none : Option RecordD).isSome = true ∨ jsDictGet a k ≠ jsDictGet b k) := by
          simp [hd]
        simp only [updateLoop, if_neg hc]
        rw [ih]
        constructor
        · intro hall e he
          rcases List.mem_cons.mp he with h | h
          · subst h; exact hd
          · exact hall e h
        · intro hall e he
          exact hall e (List.mem_cons_of_mem _ he)
      · have hc : (none : Option RecordD).isSome = true ∨ jsDictGet a k ≠ jsDictGet b k :=
          Or.inr hd
        simp only [updateLoop, if_pos hc]
        constructor
        · intro hnone
          have hs := updateLoop_some_isSome a b (jsDictSet (clone a) k v) rest
          rw [hnone] at hs
          cases hs
        · intro hall
          exact absurd (hall (k, v) (List.mem_cons_self _ _)) hd

theorem updateLoop_some_get (a b : RecordD) (l : List (String × Value)) (r d : RecordD)
    (hrun : updateLoop a b (some r) l = some d)
    (Hb : ∀ e ∈ l, jsDictGet b e.1 = some e.2) (k : String) :
    jsDictGet d k = if k ∈ l.map Prod.fst then jsDictGet b k else jsDictGet r k := by
  induction l generalizing r with
  | nil =>
      cases hrun
      simp
  | cons e rest ih =>
      obtain ⟨k₀, v₀⟩ := e
      have hc : (some r).isSome = true ∨ jsDictGet a k₀ ≠ jsDictGet b k₀ := Or.inl rfl
      simp only [updateLoop, if_pos hc] at hrun
      have Hb' : ∀ e ∈ rest, jsDictGet b e.1 = some e.2 :=
        fun e he => Hb e (List.mem_cons_of_mem _ he)
      rw [ih (jsDictSet r k₀ v₀) hrun Hb']
      by_cases hmem : k ∈ rest.map Prod.fst
      · simp [hmem]
      · simp only [if_neg hmem, List.map_cons, List.mem_cons]
        by_cases hk : k = k₀
        · subst hk
          rw [if_pos (Or.inl rfl), jsDictGet_set, if_pos rfl,
            (Hb (k, v₀) (List.mem_cons_self _ _)).symm]
        · have hnotin : ¬(k = k₀ ∨ k ∈ rest.map Prod.fst) := by
            intro hh
            rcases hh with hh | hh
            · exact hk hh
            · exact hmem hh
          rw [if_neg hnotin, jsDictGet_set, if_neg hk]

theorem updateLoop_none_get (a b : RecordD) (l : List (String × Value)) (d : RecordD)
    (hrun : updateLoop a b none l = some d)
    (Hb : ∀ e ∈ l, jsDictGet b e.1 = some e.2)
    (Hbf : Keys.frozen_key ∉ jsDictKeys b) (k : String) :
    jsDictGet d k = if k ∈ l.map Prod.fst then jsDictGet b k else jsDictGet (clone a) k := by
  induction l with
  | nil => cases hrun
  | cons e rest ih =>
      obtain ⟨k₀, v₀⟩ := e
      have Hb' : ∀ e ∈ rest, jsDictGet b e.1 = some e.2 :=
        fun e he => Hb e (List.mem_cons_of_mem _ he)
      have hkb : jsDictGet b k₀ = some v₀ := Hb (k₀, v₀) (List.mem_cons_self _ _)
      have hk₀f : k₀ ≠ Keys.frozen_key := by
        intro hh
        subst hh
        exact Hbf ((jsDictGet_isSome_iff b _).mp (by rw [hkb]; rfl))
      by_cases hd : jsDictGet a k₀ = jsDictGet b k₀
      · have hc : ¬((none : Option RecordD).isSome = true ∨ jsDictGet a k₀ ≠ jsDictGet b k₀) := by
          simp [hd]
        simp only [updateLoop, if_neg hc] at hrun
        rw [ih hrun Hb']
        by_cases hmem : k ∈ rest.map Prod.fst
        · simp [hmem]
        · simp only [if_neg hmem, List.map_cons, List.mem_cons]
          by_cases hk : k = k₀
          · subst hk
            rw [if_pos (Or.inl rfl), clone_get, if_neg hk₀f, hd, hkb]
          · have hnotin : ¬(k = k₀ ∨ k ∈ rest.map Prod.fst) := by
              intro hh
              rcases hh with hh | hh
              · exact hk hh
              · exact hmem hh
            rw [if_neg hnotin]
      · have hc : (none : Option RecordD).isSome = true ∨ jsDictGet a k₀ ≠ jsDictGet b k₀ :=
          Or.inr hd
        simp only [updateLoop, if_pos hc] at hrun
        rw [updateLoop_some_get a b rest (jsDictSet (clone a) k₀ v₀) d hrun Hb' k]
        by_cases hmem : k ∈ rest.map Prod.fst
        · simp [hmem]
        · simp only [if_neg hmem, List.map_cons, List.mem_cons]
          by_cases hk : k = k₀
          · subst hk
            rw [if_pos (Or.inl rfl), jsDictGet_set, if_pos rfl, hkb]
          · have hnotin : ¬(k = k₀ ∨ k ∈ rest.map Prod.fst) := by
              intro hh
              rcases hh with hh | hh
              · exact hk hh
              · exact hmem hh
            rw [if_neg hnotin, jsDictGet_set, if_neg hk]

theorem updateP_none_iff (a b : RecordD) :
    updateP a b = none ↔ ∀ k ∈ jsDictKeys b, jsDictGet a k = jsDictGet b k := by
  rw [updateP, updateLoop_none_eq_none_iff]
  constructor
  · intro hall k hk
    obtain ⟨e, he, rfl⟩ := List.mem_map.mp hk
    exact hall e he
  · intro hall e he
    exact hall e.1 (List.mem_map.mpr ⟨e, he, rfl⟩)

theorem updateP_some_get (a b d : RecordD)
    (hnd : jsDictNodup b) (hbf : Keys.frozen_key ∉ jsDictKeys b)
    (hrun : updateP a b = some d) (k : String) :
    jsDictGet d k =
      match jsDictGet b k with
      | some v => some v
      | none => jsDictGet (clone a) k := by
  have Hb : ∀ e ∈ b, jsDictGet b e.1 = some e.2 := by
    intro e he
    obtain ⟨k₀, v₀⟩ := e
    exact jsDictGet_eq_some_of_mem b k₀ v₀ hnd he
  rw [updateLoop_none_get a b b d hrun Hb hbf k]
  by_cases hmem : k ∈ b.map Prod.fst
  · rw [if_pos hmem]
    obtain ⟨v, hv⟩ := Option.isSome_iff_exists.mp ((jsDictGet_isSome_iff b k).mpr hmem)
    rw [hv]
  · rw [if_neg hmem]
    rw [(jsDictGet_eq_none_iff b k).mpr hmem]

end ReasonRecordDict

/-! ## Overlay, merge, copyFields and toObj characterizations -/

namespace ReasonRecordDict

theorem setEntries_get (d : RecordD) (l : List (String × Value)) (hnd : jsDictNodup l)
    (k : String) :
    jsDictGet (setEntries d l) k =
      match jsDictGet l k with
      | some v => some v
      | none => jsDictGet d k := by
  induction l generalizing d with
  | nil => rfl
  | cons e rest ih =>
      obtain ⟨k₀, v₀⟩ := e
      have hnd' : jsDictNodup rest := by
        simp only [jsDictNodup, jsDictKeys, List.map_cons, List.nodup_cons] at hnd
        exact hnd.2
      have step : setEntries d ((k₀, v₀) :: rest) = setEntries (jsDictSet d k₀ v₀) rest := rfl
      rw [step, ih _ hnd']
      by_cases hk : k₀ = k
      · subst hk
        have hrest : jsDictGet rest k₀ = none := by
          rw [jsDictGet_eq_none_iff]
          simp only [jsDictNodup, jsDictKeys, List.map_cons, List.nodup_cons] at hnd
          exact hnd.1
        rw [hrest]
        simp [jsDictGet, jsDictGet_set]
      · simp only [jsDictGet, if_neg hk]
        cases hrest : jsDictGet rest k
        · rw [jsDictGet_set, if_neg fun hh => hk hh.symm]
        · rfl

theorem merge_get (a b : RecordD) (hnd : jsDictNodup b) (k : String) :
    jsDictGet (merge a b) k =
      match jsDictGet b k with
      | some v => some v
      | none => jsDictGet (clone a) k := by
  rw [merge, setEntries_get _ _ hnd]

theorem copyFields_get (src sink : RecordD) (hnd : jsDictNodup src) (k : String) :
    jsDictGet (copyFields src sink) k =
      if k = Keys.id_key ∨ k = Keys.typename_key then jsDictGet sink k
      else
        match jsDictGet src k with
        | some v => some v
        | none => jsDictGet sink k := by
  induction src generalizing sink with
  | nil =>
      show jsDictGet sink k = _
      by_cases hk : k = Keys.id_key ∨ k = Keys.typename_key
      · rw [if_pos hk]
      · rw [if_neg hk]
        rfl
  | cons e rest ih =>
      obtain ⟨k₀, v₀⟩ := e
      have hnd' : jsDictNodup rest := by
        simp only [jsDictNodup, jsDictKeys, List.map_cons, List.nodup_cons] at hnd
        exact hnd.2
      have hknotrest : k₀ ∉ jsDictKeys rest := by
        simp only [jsDictNodup, jsDictKeys, List.map_cons, List.nodup_cons] at hnd
        exact hnd.1
      by_cases hid : k₀ ≠ Keys.id_key ∧ k₀ ≠ Keys.typename_key
      · have step : copyFields ((k₀, v₀) :: rest) sink
            = copyFields rest (jsDictSet sink k₀ v₀) := by
          show List.foldl _ (if k₀ ≠ Keys.id_key ∧ k₀ ≠ Keys.typename_key then
            jsDictSet sink k₀ v₀ else sink) rest = _
          rw [if_pos hid]
          rfl
        rw [step, ih _ hnd']
        by_cases hk : k = Keys.id_key ∨ k = Keys.typename_key
        · have hkk₀ : k ≠ k₀ := by
            intro hh
            subst hh
            rcases hk with hh | hh
            · exact hid.1 hh
            · exact hid.2 hh
          rw [if_pos hk, if_pos hk, jsDictGet_set, if_neg hkk₀]
        · rw [if_neg hk, if_neg hk]
          simp only [jsDictGet]
          by_cases hkk₀ : k₀ = k
          · subst hkk₀
            rw [(jsDictGet_eq_none_iff rest k₀).mpr hknotrest, if_pos rfl, jsDictGet_set,
              if_pos rfl]
          · rw [if_neg hkk₀]
            cases hrest : jsDictGet rest k
            · rw [jsDictGet_set, if_neg fun hh => hkk₀ hh.symm]
            · rfl
      · have step : copyFields ((k₀, v₀) :: rest) sink = copyFields rest sink := by
          show List.foldl _ (if k₀ ≠ Keys.id_key ∧ k₀ ≠ Keys.typename_key then
            jsDictSet sink k₀ v₀ else sink) rest = _
          rw [if_neg hid]
          rfl
        rw [step, ih _ hnd']
        have hk₀idty : k₀ = Keys.id_key ∨ k₀ = Keys.typename_key := by
          by_contra hcon
          push_neg at hcon
          exact hid ⟨hcon.1, hcon.2⟩
        by_cases hk : k = Keys.id_key ∨ k = Keys.typename_key
        · rw [if_pos hk, if_pos hk]
        · have hkk₀ : k₀ ≠ k := by
            intro hh
            subst hh
            exact hk hk₀idty
          rw [if_neg hk, if_neg hk]
          simp only [jsDictGet, if_neg hkk₀]

theorem toObj_get_frozen (r : RecordD) : jsDictGet (toObj r) Keys.frozen_key = none := by
  induction r with
  | nil => rfl
  | cons e rest ih =>
      obtain ⟨k₀, v₀⟩ := e
      by_cases hk : k₀ == Keys.frozen_key
      · simp only [toObj, List.filterMap_cons, if_pos hk]
        exact ih
      · simp only [toObj, List.filterMap_cons, if_neg hk]
        simp only [jsDictGet, if_neg (by simpa using hk)]
        exact ih

end ReasonRecordDict

/-! ## Boundary round trip -/

/-- The opaque JS payloads that `transformValueFromObj` classifies as
`Custom`: arrays, and objects that do not look like exactly one of the
two reference wrappers. -/
def customOk : JSValue → Bool
  | .arr _ => true
  | .obj fs =>
      match jsDictGet fs Keys.ref_key, jsDictGet fs Keys.refs_key with
      | some _, none => false
      | none, some _ => false
      | _, _ => true
  | _ => false

/-- The stored values the record API can actually produce (`setValue`,
`setLinkedRecordID(s)`, `fromObj` only ever store these): every tag except
the dead `Array` tag, with `Custom` restricted to payloads that read back
as `Custom`. -/
def goodValue : Value → Bool
  | .custom v => customOk v
  | .array _ => false
  | _ => true

theorem decodeRefs_encode (rs : List (Option String)) :
    decodeRefs (.arr (rs.map encodeRefEntry)) = some rs := by
  simp only [decodeRefs]
  induction rs with
  | nil => rfl
  | cons o rest ih =>
      cases o <;> simp_all [encodeRefEntry, decodeRefEntry, decodeRefList]

theorem classify_transform {v : Value} (hg : goodValue v = true) :
    ReasonRecordDict.classifyValueObj (transformValueToObj v) = some v := by
  cases v with
  | null => rfl
  | undefined => rfl
  | str s => rfl
  | int n => rfl
  | float f => rfl
  | bool b => rfl
  | ref s =>
      show transformValueFromObj (.obj [(Keys.ref_key, .str s)]) = some (.ref s)
      simp [transformValueFromObj, jsDictGet, Keys.ref_key, Keys.refs_key, asString]
  | refs rs =>
      show transformValueFromObj (.obj [(Keys.refs_key, .arr (rs.map encodeRefEntry))])
          = some (.refs rs)
      simp [transformValueFromObj, jsDictGet, Keys.ref_key, Keys.refs_key, decodeRefs_encode]
  | custom v =>
      cases v with
      | arr es => rfl
      | obj fs =>
          show transformValueFromObj (.obj fs) = some (.custom (.obj fs))
          simp only [transformValueFromObj]
          cases hr : jsDictGet fs Keys.ref_key <;> cases hs : jsDictGet fs Keys.refs_key
          · rfl
          · simp [goodValue, customOk, hr, hs] at hg
          · simp [goodValue, customOk, hr, hs] at hg
          · rfl
      | null => exact absurd hg (by simp [goodValue, customOk])
      | undefined => exact absurd hg (by simp [goodValue, customOk])
      | str s => exact absurd hg (by simp [goodValue, customOk])
      | int n => exact absurd hg (by simp [goodValue, customOk])
      | float f => exact absurd hg (by simp [goodValue, customOk])
      | bool b => exact absurd hg (by simp [goodValue, customOk])
  | array vs => exact absurd hg (by simp [goodValue])

theorem jsDictKeys_append {α : Type} (a b : List (String × α)) :
    jsDictKeys (a ++ b) = jsDictKeys a ++ jsDictKeys b := by
  simp [jsDictKeys]

theorem toObj_map {r : RecordD} (h : Keys.frozen_key ∉ jsDictKeys r) :
    ReasonRecordDict.toObj r = r.map fun e => (e.1, transformValueToObj e.2) := by
  induction r with
  | nil => rfl
  | cons e rest ih =>
      obtain ⟨k₀, v₀⟩ := e
      simp only [jsDictKeys, List.map_cons, List.mem_cons] at h
      push_neg at h
      have hprop : ¬k₀ = Keys.frozen_key := fun hh => h.1 hh.symm
      have ihr := ih h.2
      simp [ReasonRecordDict.toObj, List.filterMap_cons, hprop] at ihr ⊢
      exact ihr

theorem fromObj_fold (l : RecordD) (acc : RecordD)
    (hnd : jsDictNodup l)
    (hg : ∀ e ∈ l, goodValue e.2 = true)
    (hdisj : ∀ e ∈ l, e.1 ∉ jsDictKeys acc) :
    (l.map fun e => (e.1, transformValueToObj e.2)).foldl
      (fun acc e =>
        acc.bind fun d => (ReasonRecordDict.classifyValueObj e.2).map fun value =>
          jsDictSet d e.1 value)
      (some acc) = some (acc ++ l) := by
  induction l generalizing acc with
  | nil => simp
  | cons e rest ih =>
      obtain ⟨k₀, v₀⟩ := e
      have hnd' : jsDictNodup rest := by
        simp only [jsDictNodup, jsDictKeys, List.map_cons, List.nodup_cons] at hnd
        exact hnd.2
      have hk₀rest : k₀ ∉ jsDictKeys rest := by
        simp only [jsDictNodup, jsDictKeys, List.map_cons, List.nodup_cons] at hnd
        exact hnd.1
      have hacc : ((some acc).bind fun d =>
          (ReasonRecordDict.classifyValueObj (transformValueToObj v₀)).map fun value =>
            jsDictSet d k₀ value) = some (acc ++ [(k₀, v₀)]) := by
        simp [classify_transform (hg (k₀, v₀) (List.mem_cons_self _ _)),
          jsDictSet_of_not_mem v₀ (hdisj (k₀, v₀) (List.mem_cons_self _ _))]
      simp only [List.map_cons, List.foldl_cons]
      rw [hacc]
      rw [ih (acc ++ [(k₀, v₀)]) hnd'
        (fun e he => hg e (List.mem_cons_of_mem _ he))
        (by
          intro e he
          rw [jsDictKeys_append]
          simp only [List.mem_append, jsDictKeys, List.map_cons, List.map_nil,
            List.mem_singleton]
          push_neg
          refine ⟨hdisj e (List.mem_cons_of_mem _ he), ?_⟩
          intro hh
          exact hk₀rest (hh ▸ List.mem_map.mpr ⟨e, he, rfl⟩))]
      simp


/-! ## Claim theorems -/

/-- C1: `update(prev, next)` (for records carrying no in-band frozen
marker, i.e. every field-map state; the marker's own interaction with the
copy path is claim C10's subject) returns a value reference-equal to
`prev` iff every key present in `next` has a value deep-equal to `prev`'s
value at that key; otherwise it returns a new record deep-equal to `prev`
with `next`'s keys overlaid, and `prev` itself is unmodified. -/
theorem update_copy_on_write (h : HeapD) (a b : Nat) (ha : a < h.length)
    (hB : jsDictNodup (hread h b))
    (fA : Keys.frozen_key ∉ jsDictKeys (hread h a))
    (fB : Keys.frozen_key ∉ jsDictKeys (hread h b)) :
    ((updateOp h a b).2 = a ↔
      ∀ k ∈ jsDictKeys (hread h b), jsDictGet (hread h a) k = jsDictGet (hread h b) k) ∧
    ((updateOp h a b).2 ≠ a →
      ∀ k, jsDictGet (hread (updateOp h a b).1 (updateOp h a b).2) k
        = jsDictGet (ReasonRecordDict.setEntries (hread h a) (hread h b)) k) ∧
    hread (updateOp h a b).1 a = hread h a := by
  cases hP : ReasonRecordDict.updateP (hread h a) (hread h b) with
  | none =>
      have hOp : updateOp h a b = (h, a) := by simp [updateOp, hP]
      rw [hOp]
      refine ⟨?_, ?_, rfl⟩
      · exact ⟨fun _ => (ReasonRecordDict.updateP_none_iff _ _).mp hP, fun _ => rfl⟩
      · intro hne
        exact absurd rfl hne
  | some d =>
      have hOp : updateOp h a b = (h ++ [d], h.length) := by simp [updateOp, hP, halloc]
      rw [hOp]
      have hne : h.length ≠ a := by omega
      refine ⟨?_, ?_, hread_append d ha⟩
      · constructor
        · intro hh
          exact absurd hh hne
        · intro hall
          have := (ReasonRecordDict.updateP_none_iff _ _).mpr hall
          rw [hP] at this
          cases this
      · intro _ k
        show jsDictGet (hread (h ++ [d]) h.length) k = _
        rw [hread_concat]
        rw [ReasonRecordDict.updateP_some_get _ _ _ hB fB hP k]
        rw [ReasonRecordDict.setEntries_get _ _ hB k]
        rw [ReasonRecordDict.clone_of_not_frozen fA]

theorem update_copy_on_write_witness :
    ((updateOp [[(Keys.id_key, Value.str "4"), (Keys.typename_key, Value.str "User"),
        ("name", Value.str "Zuck")],
      [(Keys.id_key, Value.str "4"), (Keys.typename_key, Value.str "User"),
        ("name", Value.str "Zuck")]] 0 1).2 = 0) ∧
    ((updateOp [[(Keys.id_key, Value.str "4"), (Keys.typename_key, Value.str "User")],
      [(Keys.id_key, Value.str "4"), (Keys.typename_key, Value.str "User"),
        ("name", Value.str "Zuck")]] 0 1).2 ≠ 0) := by
  constructor
  · exact (update_copy_on_write
      [[(Keys.id_key, Value.str "4"), (Keys.typename_key, Value.str "User"),
          ("name", Value.str "Zuck")],
        [(Keys.id_key, Value.str "4"), (Keys.typename_key, Value.str "User"),
          ("name", Value.str "Zuck")]] 0 1
      (by decide) (by decide) (by decide) (by decide)).1.mpr (by decide)
  · intro hh
    have hiff := (update_copy_on_write
      [[(Keys.id_key, Value.str "4"), (Keys.typename_key, Value.str "User")],
        [(Keys.id_key, Value.str "4"), (Keys.typename_key, Value.str "User"),
          ("name", Value.str "Zuck")]] 0 1
      (by decide) (by decide) (by decide) (by decide)).1
    exact absurd (hiff.mp hh) (by decide)

/-- C3: `merge(r1, r2)` returns a record reference-distinct from both its
arguments (even when no field would change), whose fields equal `r1`'s
fields (minus the in-band frozen marker, which `clone` strips — here
`r1` is marker-free) overwritten by every field present in `r2`. -/
theorem merge_always_fresh (h : HeapD) (a b : Nat) (ha : a < h.length) (hb : b < h.length)
    (fA : Keys.frozen_key ∉ jsDictKeys (hread h a)) :
    (mergeOp h a b).2 ≠ a ∧ (mergeOp h a b).2 ≠ b ∧
    hread (mergeOp h a b).1 (mergeOp h a b).2
      = ReasonRecordDict.setEntries (hread h a) (hread h b) := by
  refine ⟨?_, ?_, ?_⟩
  · show h.length ≠ a
    omega
  · show h.length ≠ b
    omega
  · show hread (h ++ [_]) h.length = _
    rw [hread_concat]
    rw [ReasonRecordDict.merge, ReasonRecordDict.clone_of_not_frozen fA]

theorem merge_always_fresh_witness :
    (mergeOp [[(Keys.id_key, Value.str "4"), (Keys.typename_key, Value.str "User")],
      [(Keys.id_key, Value.str "4"), (Keys.typename_key, Value.str "User")]] 0 1).2 ≠ 0 ∧
    (mergeOp [[(Keys.id_key, Value.str "4"), (Keys.typename_key, Value.str "User")],
      [(Keys.id_key, Value.str "4"), (Keys.typename_key, Value.str "User")]] 0 1).2 ≠ 1 :=
  ⟨(merge_always_fresh
      [[(Keys.id_key, Value.str "4"), (Keys.typename_key, Value.str "User")],
        [(Keys.id_key, Value.str "4"), (Keys.typename_key, Value.str "User")]] 0 1
      (by decide) (by decide) (by decide)).1,
   (merge_always_fresh
      [[(Keys.id_key, Value.str "4"), (Keys.typename_key, Value.str "User")],
        [(Keys.id_key, Value.str "4"), (Keys.typename_key, Value.str "User")]] 0 1
      (by decide) (by decide) (by decide)).2.1⟩

/-- C9: the copy-producing operations `clone`, `update` and `merge` never
mutate their inputs: every record cell that existed before the call holds
exactly the same contents afterwards. -/
theorem copy_ops_preserve_inputs (h : HeapD) (a b r : Nat) (hr : r < h.length) :
    hread (cloneOp h a).1 r = hread h r ∧
    hread (updateOp h a b).1 r = hread h r ∧
    hread (mergeOp h a b).1 r = hread h r := by
  refine ⟨hread_append _ hr, ?_, hread_append _ hr⟩
  cases hP : ReasonRecordDict.updateP (hread h a) (hread h b) with
  | none => simp [updateOp, hP]
  | some d =>
      have hOp : updateOp h a b = (h ++ [d], h.length) := by simp [updateOp, hP, halloc]
      rw [hOp]
      exact hread_append d hr

theorem copy_ops_preserve_inputs_witness :
    hread (cloneOp [[("name", Value.str "Zuck")], [("name", Value.str "Mark")]] 0).1 0
      = [("name", Value.str "Zuck")] ∧
    hread (updateOp [[("name", Value.str "Zuck")], [("name", Value.str "Mark")]] 0 1).1 0
      = [("name", Value.str "Zuck")] ∧
    hread (mergeOp [[("name", Value.str "Zuck")], [("name", Value.str "Mark")]] 0 1).1 0
      = [("name", Value.str "Zuck")] :=
  copy_ops_preserve_inputs [[("name", Value.str "Zuck")], [("name", Value.str "Mark")]]
    0 1 0 (by decide)

/-- C5: `fromObj(toObj(r))` is deep-equal (here: equal) to `r` for every
record whose fields hold the API-reachable value kinds — scalar,
explicit null, undefined, single reference, plural reference with null
slots — and which carries no in-band frozen marker (`toObj` strips the
marker; its stripping is claim C10's subject). -/
theorem toObj_fromObj_roundtrip (r : RecordD) (hnd : jsDictNodup r)
    (hf : Keys.frozen_key ∉ jsDictKeys r) (hg : ∀ e ∈ r, goodValue e.2 = true) :
    ReasonRecordDict.fromObj (ReasonRecordDict.toObj r) = some r := by
  rw [toObj_map hf]
  have h0 := fromObj_fold r [] hnd hg (by intro e _; simp [jsDictKeys])
  simpa [ReasonRecordDict.fromObj] using h0

theorem toObj_fromObj_roundtrip_witness :
    ReasonRecordDict.fromObj (ReasonRecordDict.toObj
      [(Keys.id_key, Value.str "4"), (Keys.typename_key, Value.str "User"),
       ("name", Value.str "Mark"), ("age", Value.int 36), ("height", Value.float ⟨"1.71"⟩),
       ("cool", Value.bool true), ("blockbusterMembership", Value.null),
       ("uri", Value.undefined), ("hometown", Value.ref "mpk"),
       ("friends", Value.refs [some "beast", none, some "greg"]),
       ("other", Value.custom (.obj [("customScalar", .bool true)]))])
      = some
      [(Keys.id_key, Value.str "4"), (Keys.typename_key, Value.str "User"),
       ("name", Value.str "Mark"), ("age", Value.int 36), ("height", Value.float ⟨"1.71"⟩),
       ("cool", Value.bool true), ("blockbusterMembership", Value.null),
       ("uri", Value.undefined), ("hometown", Value.ref "mpk"),
       ("friends", Value.refs [some "beast", none, some "greg"]),
       ("other", Value.custom (.obj [("customScalar", .bool true)]))] :=
  toObj_fromObj_roundtrip
    [(Keys.id_key, Value.str "4"), (Keys.typename_key, Value.str "User"),
     ("name", Value.str "Mark"), ("age", Value.int 36), ("height", Value.float ⟨"1.71"⟩),
     ("cool", Value.bool true), ("blockbusterMembership", Value.null),
     ("uri", Value.undefined), ("hometown", Value.ref "mpk"),
     ("friends", Value.refs [some "beast", none, some "greg"]),
     ("other", Value.custom (.obj [("customScalar", .bool true)]))]
    (by decide) (by decide) (by decide)

/-- A stored value that is one of the two reference wrappers. -/
def isRefWrapper : Value → Bool
  | .ref _ => true
  | .refs _ => true
  | _ => false

/-- A stored value that is a populated plain scalar (not a wrapper, not
the explicit null/undefined markers). -/
def isPlainScalar : Value → Bool
  | .str _ => true
  | .int _ => true
  | .float _ => true
  | .bool _ => true
  | .custom _ => true
  | .array _ => true
  | _ => false

/-- C4: `getValue` returns `undefined` when the key was never set, `null`
when it holds explicit null, the stored value (in raw JS form) otherwise,
and raises when the key holds a single- or plural-reference wrapper;
symmetrically `getLinkedRecordID` raises when the key holds a plain
scalar or a plural reference. -/
theorem accessor_kind_contract (r : RecordD) (k : String) :
    (jsDictGet r k = none →
      ReasonRecordDict.getValue r k = .ok .undefined ∧
      ReasonRecordDict.getLinkedRecordID r k = .ok .undefined) ∧
    (jsDictGet r k = some .null →
      ReasonRecordDict.getValue r k = .ok .null ∧
      ReasonRecordDict.getLinkedRecordID r k = .ok .null) ∧
    (∀ v, jsDictGet r k = some v → isRefWrapper v = false →
      ReasonRecordDict.getValue r k = .ok (transformValueToObj v)) ∧
    (∀ v, jsDictGet r k = some v → isRefWrapper v = true →
      ∃ msg, ReasonRecordDict.getValue r k = .error msg) ∧
    (∀ v, jsDictGet r k = some v → (isPlainScalar v = true ∨ ∃ rs, v = .refs rs) →
      ∃ msg, ReasonRecordDict.getLinkedRecordID r k = .error msg) := by
  refine ⟨?_, ?_, ?_, ?_, ?_⟩
  · intro h
    exact ⟨by simp [ReasonRecordDict.getValue, h],
      by simp [ReasonRecordDict.getLinkedRecordID, h]⟩
  · intro h
    exact ⟨by simp [ReasonRecordDict.getValue, h, transformValueToObj],
      by simp [ReasonRecordDict.getLinkedRecordID, h]⟩
  · intro v h hw
    cases v <;> simp_all [ReasonRecordDict.getValue, isRefWrapper]
  · intro v h hw
    cases v with
    | ref s =>
        exact ⟨ReasonRecordDict.getValueMsg (ReasonRecordDict.getDataID r) k "a linked record",
          by simp [ReasonRecordDict.getValue, h]⟩
    | refs rs =>
        exact ⟨ReasonRecordDict.getValueMsg (ReasonRecordDict.getDataID r) k
            "plural linked records",
          by simp [ReasonRecordDict.getValue, h]⟩
    | null => simp_all [isRefWrapper]
    | undefined => simp_all [isRefWrapper]
    | str s => simp_all [isRefWrapper]
    | int n => simp_all [isRefWrapper]
    | float f => simp_all [isRefWrapper]
    | bool b => simp_all [isRefWrapper]
    | custom v => simp_all [isRefWrapper]
    | array vs => simp_all [isRefWrapper]
  · intro v h hw
    cases v with
    | str s => exact ⟨"WRONG", by simp [ReasonRecordDict.getLinkedRecordID, h]⟩
    | int n => exact ⟨"WRONG", by simp [ReasonRecordDict.getLinkedRecordID, h]⟩
    | float f => exact ⟨"WRONG", by simp [ReasonRecordDict.getLinkedRecordID, h]⟩
    | bool b => exact ⟨"WRONG", by simp [ReasonRecordDict.getLinkedRecordID, h]⟩
    | custom v => exact ⟨"WRONG", by simp [ReasonRecordDict.getLinkedRecordID, h]⟩
    | array vs => exact ⟨"WRONG", by simp [ReasonRecordDict.getLinkedRecordID, h]⟩
    | refs rs => exact ⟨"WRONG", by simp [ReasonRecordDict.getLinkedRecordID, h]⟩
    | null =>
        rcases hw with hw | ⟨rs, hrs⟩
        · simp [isPlainScalar] at hw
        · cases hrs
    | undefined =>
        rcases hw with hw | ⟨rs, hrs⟩
        · simp [isPlainScalar] at hw
        · cases hrs
    | ref s =>
        rcases hw with hw | ⟨rs, hrs⟩
        · simp [isPlainScalar] at hw
        · cases hrs

theorem accessor_kind_contract_witness :
    (∃ msg, ReasonRecordDict.getValue
      [(Keys.id_key, Value.str "4"), ("hometown", Value.ref "mpk")] "hometown"
        = .error msg) ∧
    (∃ msg, ReasonRecordDict.getLinkedRecordID
      [(Keys.id_key, Value.str "4"), ("name", Value.str "Mark")] "name" = .error msg) ∧
    ReasonRecordDict.getValue
      [(Keys.id_key, Value.str "4"), ("name", Value.str "Mark")] "enemies" = .ok .undefined :=
  ⟨(accessor_kind_contract [(Keys.id_key, Value.str "4"), ("hometown", Value.ref "mpk")]
      "hometown").2.2.2.1 (Value.ref "mpk") (by decide) (by decide),
   (accessor_kind_contract [(Keys.id_key, Value.str "4"), ("name", Value.str "Mark")]
      "name").2.2.2.2 (Value.str "Mark") (by decide) (Or.inl (by decide)),
   ((accessor_kind_contract [(Keys.id_key, Value.str "4"), ("name", Value.str "Mark")]
      "enemies").1 (by decide)).1⟩

/-- C6: `create(id, type)` returns a record holding exactly the two
identity fields; a string id is stored as is and a numeric id (integral
or not) is silently stringified; the function is total (it has no error
outcome at all). -/
theorem create_only_identity_fields :
    (∀ s t : String, ReasonRecordDict.create (.str s) t
      = [(Keys.id_key, .str s), (Keys.typename_key, .str t)]) ∧
    (∀ (n : Int) (t : String), ReasonRecordDict.create (.int n) t
      = [(Keys.id_key, .str (toString n)), (Keys.typename_key, .str t)]) ∧
    (∀ (f : JSFloat) (t : String), ReasonRecordDict.create (.float f) t
      = [(Keys.id_key, .str f.s), (Keys.typename_key, .str t)]) := by
  have hne : ¬Keys.id_key = Keys.typename_key := by decide
  refine ⟨fun s t => ?_, fun n t => ?_, fun f t => ?_⟩ <;>
    simp [ReasonRecordDict.create, jsDictSet, hne]

/-- C8: updating a record's type key through `setValue` to a different
type raises no consistency warning when the record's id is
client-generated, and raises the warning — while still applying the
mutation — when it is not (the record not being frozen, so that the
store step is reached; a frozen record is claim C2's subject). -/
theorem setValue_typename_consistency (r : RecordD) (t : String)
    (hfr : ReasonRecordDict.isFrozen r = false)
    (hdiff : ReasonRecordDict.getType r ≠ t) :
    (isClientID (ReasonRecordDict.getDataID r) = true →
      (ReasonRecordDict.setValue r Keys.typename_key (.str t)).warnings = []) ∧
    (isClientID (ReasonRecordDict.getDataID r) = false →
      (ReasonRecordDict.setValue r Keys.typename_key (.str t)).warnings
        = [ReasonRecordDict.setValueTypeWarning (ReasonRecordDict.getDataID r)
            (ReasonRecordDict.getType r) t]) ∧
    (ReasonRecordDict.setValue r Keys.typename_key (.str t)).result
      = .ok (jsDictSet r Keys.typename_key (.str t)) := by
  have hkey : ¬Keys.typename_key = Keys.id_key := by decide
  have hbeq : (ReasonRecordDict.getType r == t) = false := beq_eq_false_iff_ne.mpr hdiff
  have hnotfrozen : ∀ res, (match jsDictGet r Keys.frozen_key with
      | some (.bool true) =>
          ({ warnings := res, result := .error "Record is frozen" } : ReasonRecordDict.SetValueResult)
      | _ => { warnings := res, result := .ok (jsDictSet r Keys.typename_key (.str t)) })
      = { warnings := res, result := .ok (jsDictSet r Keys.typename_key (.str t)) } := by
    intro res
    unfold ReasonRecordDict.isFrozen at hfr
    cases hg : jsDictGet r Keys.frozen_key with
    | none => rfl
    | some v =>
        cases v with
        | bool b =>
            cases b with
            | true => rw [hg] at hfr; cases hfr
            | false => rfl
        | null => rfl
        | undefined => rfl
        | str s => rfl
        | int n => rfl
        | float f => rfl
        | ref x => rfl
        | refs x => rfl
        | custom x => rfl
        | array x => rfl
  refine ⟨?_, ?_, ?_⟩
  · intro hcl
    show (ReasonRecordDict.setValue r Keys.typename_key (.str t)).warnings = []
    simp only [ReasonRecordDict.setValue, ReasonRecordDict.classifyValueObj,
      transformValueFromObj, if_neg hkey, if_pos rfl, ReasonRecordDict.warnUnless, hcl,
      Bool.true_or, if_pos]
    rw [hnotfrozen]
  · intro hcl
    simp only [ReasonRecordDict.setValue, ReasonRecordDict.classifyValueObj,
      transformValueFromObj, if_neg hkey, if_pos rfl, ReasonRecordDict.warnUnless, hcl,
      hbeq, Bool.false_or, if_neg]
    rw [hnotfrozen]
    simp
  · simp only [ReasonRecordDict.setValue, ReasonRecordDict.classifyValueObj,
      transformValueFromObj, if_neg hkey, if_pos rfl]
    rw [hnotfrozen]

theorem setValue_typename_consistency_witness :
    (ReasonRecordDict.setValue (ReasonRecordDict.create (.str "client:42") "Number")
      Keys.typename_key (.str "MeaningOfLife")).warnings = [] ∧
    (ReasonRecordDict.setValue (ReasonRecordDict.create (.str "42") "Number")
      Keys.typename_key (.str "MeaningOfLife")).warnings
      = [ReasonRecordDict.setValueTypeWarning "42" "Number" "MeaningOfLife"] ∧
    (ReasonRecordDict.setValue (ReasonRecordDict.create (.str "42") "Number")
      Keys.typename_key (.str "MeaningOfLife")).result
      = .ok (jsDictSet (ReasonRecordDict.create (.str "42") "Number")
          Keys.typename_key (.str "MeaningOfLife")) :=
  ⟨(setValue_typename_consistency (ReasonRecordDict.create (.str "client:42") "Number")
      "MeaningOfLife" (by decide) (by decide)).1 (by decide),
   (setValue_typename_consistency (ReasonRecordDict.create (.str "42") "Number")
      "MeaningOfLife" (by decide) (by decide)).2.1 (by decide),
   (setValue_typename_consistency (ReasonRecordDict.create (.str "42") "Number")
      "MeaningOfLife" (by decide) (by decide)).2.2⟩

/-- C10: `copyFields(source, sink)` copies every field of `source` except
the `__id` and `__typename` keys — in particular it copies the in-band
frozen marker, so a frozen source makes the sink report frozen — while
`clone` and `toObj` both strip the marker. -/
theorem copyFields_copies_frozen_marker (src sink r : RecordD)
    (hnd : jsDictNodup src) (hf : ReasonRecordDict.isFrozen src = true) :
    ReasonRecordDict.isFrozen (ReasonRecordDict.copyFields src sink) = true ∧
    (∀ k, k ≠ Keys.id_key → k ≠ Keys.typename_key →
      jsDictGet (ReasonRecordDict.copyFields src sink) k =
        match jsDictGet src k with
        | some v => some v
        | none => jsDictGet sink k) ∧
    jsDictGet (ReasonRecordDict.copyFields src sink) Keys.id_key
      = jsDictGet sink Keys.id_key ∧
    jsDictGet (ReasonRecordDict.copyFields src sink) Keys.typename_key
      = jsDictGet sink Keys.typename_key ∧
    ReasonRecordDict.isFrozen (ReasonRecordDict.clone r) = false ∧
    jsDictGet (ReasonRecordDict.toObj r) Keys.frozen_key = none := by
  have hsrc : jsDictGet src Keys.frozen_key = some (.bool true) := by
    unfold ReasonRecordDict.isFrozen at hf
    cases hg : jsDictGet src Keys.frozen_key with
    | none => rw [hg] at hf; cases hf
    | some v =>
        cases v with
        | bool b =>
            rw [hg] at hf
            have hb : b = true := hf
            rw [hb]
        | null => rw [hg] at hf; cases hf
        | undefined => rw [hg] at hf; cases hf
        | str s => rw [hg] at hf; cases hf
        | int n => rw [hg] at hf; cases hf
        | float f => rw [hg] at hf; cases hf
        | ref x => rw [hg] at hf; cases hf
        | refs x => rw [hg] at hf; cases hf
        | custom x => rw [hg] at hf; cases hf
        | array x => rw [hg] at hf; cases hf
  refine ⟨?_, ?_, ?_, ?_, ReasonRecordDict.isFrozen_clone r,
    ReasonRecordDict.toObj_get_frozen r⟩
  · have hchar := ReasonRecordDict.copyFields_get src sink hnd Keys.frozen_key
    rw [if_neg (by decide), hsrc] at hchar
    unfold ReasonRecordDict.isFrozen
    rw [hchar]
  · intro k h1 h2
    have hchar := ReasonRecordDict.copyFields_get src sink hnd k
    rw [if_neg (fun hh => hh.elim h1 h2)] at hchar
    exact hchar
  · have hchar := ReasonRecordDict.copyFields_get src sink hnd Keys.id_key
    rw [if_pos (Or.inl rfl)] at hchar
    exact hchar
  · have hchar := ReasonRecordDict.copyFields_get src sink hnd Keys.typename_key
    rw [if_pos (Or.inr rfl)] at hchar
    exact hchar

theorem copyFields_copies_frozen_marker_witness :
    ReasonRecordDict.isFrozen (ReasonRecordDict.copyFields
      (ReasonRecordDict.freeze (ReasonRecordDict.create (.str "__4") "__User"))
      (ReasonRecordDict.create (.str "4") "User")) = true ∧
    jsDictGet (ReasonRecordDict.copyFields
      (ReasonRecordDict.freeze (ReasonRecordDict.create (.str "__4") "__User"))
      (ReasonRecordDict.create (.str "4") "User")) Keys.id_key
      = jsDictGet (ReasonRecordDict.create (.str "4") "User") Keys.id_key :=
  ⟨(copyFields_copies_frozen_marker
      (ReasonRecordDict.freeze (ReasonRecordDict.create (.str "__4") "__User"))
      (ReasonRecordDict.create (.str "4") "User")
      (ReasonRecordDict.create (.str "4") "User") (by decide) (by decide)).1,
   (copyFields_copies_frozen_marker
      (ReasonRecordDict.freeze (ReasonRecordDict.create (.str "__4") "__User"))
      (ReasonRecordDict.create (.str "4") "User")
      (ReasonRecordDict.create (.str "4") "User") (by decide) (by decide)).2.2.1⟩

/-- C2 (claim versus code): after `freeze(r)`, `isFrozen(r)` is true and
`setValue` does raise — but `setLinkedRecordID` and `setLinkedRecordIDs`
consult no frozen marker at all: evaluated on the frozen record they
store their reference and raise nothing (their embedding is total), so
the frozen record is silently mutated, contradicting the claim and the
code's own documentation that every `set*` on a frozen record fatals. -/
theorem frozen_setter_gap_eval :
    ReasonRecordDict.isFrozen
      (ReasonRecordDict.freeze (ReasonRecordDict.create (.str "4") "User")) = true ∧
    (ReasonRecordDict.setValue
      (ReasonRecordDict.freeze (ReasonRecordDict.create (.str "4") "User")) "pet"
      (.str "Beast")).result = .error "Record is frozen" ∧
    ReasonRecordDict.setLinkedRecordID
      (ReasonRecordDict.freeze (ReasonRecordDict.create (.str "4") "User")) "pet" "beast"
      = [(Keys.id_key, .str "4"), (Keys.typename_key, .str "User"),
         (Keys.frozen_key, .bool true), ("pet", .ref "beast")] ∧
    ReasonRecordDict.setLinkedRecordIDs
      (ReasonRecordDict.freeze (ReasonRecordDict.create (.str "4") "User")) "friends"
      [some "a", none]
      = [(Keys.id_key, .str "4"), (Keys.typename_key, .str "User"),
         (Keys.frozen_key, .bool true), ("friends", .refs [some "a", none])] :=
  ⟨by decide, by decide, by decide, by decide⟩

/-- C7 (claim versus code): a `TypeMismatch` raised by `getValue` or
`getLinkedRecordIDs` does carry the record's id, the key and a
description of what was found, but `getLinkedRecordID` on a field holding
a plain scalar raises the bare message `"WRONG"`, which contains neither
the record's id `4` nor the key `name` nor any description. -/
theorem getLinkedRecordID_message_eval :
    (ReasonRecordDict.setValue (ReasonRecordDict.create (.str "4") "User") "name"
      (.str "Mark")).result
      = .ok [(Keys.id_key, .str "4"), (Keys.typename_key, .str "User"),
             ("name", .str "Mark")] ∧
    ReasonRecordDict.getLinkedRecordID
      [(Keys.id_key, .str "4"), (Keys.typename_key, .str "User"), ("name", .str "Mark")]
      "name" = .error "WRONG" ∧
    ¬("4".data <:+: "WRONG".data) ∧ ¬("name".data <:+: "WRONG".data) ∧
    ReasonRecordDict.getValue
      [(Keys.id_key, .str "4"), (Keys.typename_key, .str "User"),
       ("hometown", .ref "mpk")] "hometown"
      = .error "RelayModernRecord.getValue(): Expected a scalar (non-link) value for `4.hometown` but found a linked record." ∧
    ReasonRecordDict.getLinkedRecordIDs
      [(Keys.id_key, .str "4"), (Keys.typename_key, .str "User"),
       ("hometown", .ref "mpk")] "hometown"
      = .error "RelayModernRecord.getLinkedRecordIDs(): Expected `4.hometown` to contain an array of linked IDs, got `ref:mpk`." :=
  ⟨by decide, by decide, by decide, by decide, by decide, by decide⟩
